import Mathlib

/-!
Shallow embedding of the mqcensor firmware (src/mqcensor.c, full variant, and
src/unnamed/part_000, the simpler variant).

Conventions of the embedding:
* machine integers are modelled as Nat with explicit reduction modulo 2^32
  where the C type is uint32_t and overflow matters;
* the float fields of AHT22Result are modelled as exact rationals; all the
  constants and comparisons of the source are exactly representable, and the
  proved range bounds hold with margins that are orders of magnitude wider
  than any float32 rounding error of the source arithmetic;
* time is modelled in milliseconds; one iteration of the main loop advances
  the clock by the nominal cycle period (the fixed 1000 ms sleep), and all
  observations inside one iteration happen at the instant the iteration
  starts, which is the granularity at which the loop samples the clock;
* the external collaborators (link status, broker session flag, outcome of a
  reconnect attempt, the i2c bus transaction) are inputs supplied by the
  environment for each cycle;
* request_reboot_now never returns in the source (watchdog_reboot followed by
  an infinite loop), so the loop state freezes once the reboot is requested.
-/

/-- WD_TIMEOUT_MS of mqcensor.c line 19: the armed watchdog timeout. -/
def WD_TIMEOUT_MS : Nat := 8000

/-- DEADLINE_MS of mqcensor.c line 20: hard-escalation deadline. -/
def DEADLINE_MS : Nat := 300000

/-- SAFE_REBOOTS of mqcensor.c line 21: bootloop threshold. -/
def SAFE_REBOOTS : Nat := 5

/-- Fixed period of the main loop: the sleep_ms(1000) at mqcensor.c line 296. -/
def CYCLE_MS : Nat := 1000

/-- Timeout passed to cyw43_arch_wifi_connect_timeout_ms at mqcensor.c line 86. -/
def WIFI_CONNECT_TIMEOUT_MS : Nat := 30000

/-- Settle delay sleep_ms(80) inside read_aht20, mqcensor.c line 133. -/
def SENSOR_SETTLE_MS : Nat := 80

/-- The 3000 us timeout of each i2c transfer in read_aht20, in ms. -/
def I2C_XFER_TIMEOUT_MS : Nat := 3

/-- Modulus of the uint32_t scratch register holding the reboot counter. -/
def UINT32_MOD : Nat := 4294967296

/-- ms_passed of mqcensor.c lines 23 to 26: true when strictly more than the
given number of milliseconds elapsed between instant t and instant tNow. -/
def ms_passed (t tNow ms : Nat) : Bool := decide (ms < tNow - t)

/-- The counter transition inside wd_init_and_bootloop_guard, mqcensor.c
lines 31 to 36: increment the uint32_t scratch counter when the boot was
watchdog caused, reset it to zero otherwise. -/
def wd_bootloop_next (cnt : Nat) (wdCaused : Bool) : Nat :=
  if wdCaused then (cnt + 1) % UINT32_MOD else 0

/-- wd_init_and_bootloop_guard of mqcensor.c lines 28 to 42: given the
persisted scratch counter and whether the boot was watchdog caused, returns
the value written back to the scratch register together with the safe mode
decision cnt >= SAFE_REBOOTS. -/
def wd_init_and_bootloop_guard (scratch0 : Nat) (wdCaused : Bool) : Nat × Bool :=
  let cnt := wd_bootloop_next scratch0 wdCaused
  (cnt, decide (SAFE_REBOOTS ≤ cnt))

/-- Iterated bootloop guard transitions over a sequence of boots, oldest
first; each list element tells whether that boot was watchdog caused. -/
def bootsAfter (c : Nat) (l : List Bool) : Nat := l.foldl wd_bootloop_next c

/-- AHT22Result of mqcensor.c lines 58 to 62, float fields as rationals. -/
structure AHT22Result where
  temp : ℚ
  hum : ℚ
deriving DecidableEq

/-- FAILRESULT of mqcensor.c line 64: the failure sentinel of the full
variant, both fields -100. -/
def FAILRESULT : AHT22Result := ⟨-100, -100⟩

/-- is_failed of mqcensor.c lines 72 to 75: hum == -100.0f or
temp <= -100.0f. -/
def is_failed (r : AHT22Result) : Bool :=
  decide (r.hum = -100) || decide (r.temp ≤ -100)

/-- FAILRESULT of src/unnamed/part_000 line 23: the simpler variant uses
-1 for both fields. -/
def FAILRESULT_simple : AHT22Result := ⟨-1, -1⟩

/-- is_failed of src/unnamed/part_000 lines 31 to 34: hum <= 0.0f or
temp <= 0.0f. -/
def is_failed_simple (r : AHT22Result) : Bool :=
  decide (r.hum ≤ 0) || decide (r.temp ≤ 0)

/-- The six raw bytes returned by the i2c read in read_aht20 (buf[0] is the
status byte, ignored by the conversion). -/
structure RawFrame where
  b0 : Nat
  b1 : Nat
  b2 : Nat
  b3 : Nat
  b4 : Nat
  b5 : Nat
deriving DecidableEq

/-- raw_h of mqcensor.c line 139: (buf[1] << 12) | (buf[2] << 4) | (buf[3] >> 4). -/
def raw_h (f : RawFrame) : Nat := f.b1 <<< 12 ||| f.b2 <<< 4 ||| f.b3 >>> 4

/-- raw_t of mqcensor.c line 140: ((buf[3] & 0x0F) << 16) | (buf[4] << 8) | buf[5]. -/
def raw_t (f : RawFrame) : Nat := (f.b3 &&& 15) <<< 16 ||| f.b4 <<< 8 ||| f.b5

/-- The conversion of mqcensor.c lines 141 to 144: hum = raw_h * 100 / 2^20
and tmp = raw_t * 200 / 2^20 - 50, packed via new_aht22result(tmp, hum). -/
def convert (f : RawFrame) : AHT22Result :=
  ⟨(raw_t f : ℚ) * 200 / 1048576 - 50, (raw_h f : ℚ) * 100 / 1048576⟩

/-- SUCCESS of mqcensor.c line 113: the expected i2c read return value. -/
def SUCCESS : Int := 6

/-- Outcome of the i2c bus transaction: the return value of
i2c_read_timeout_us (byte count, or a negative error code on timeout or
NACK) together with the buffer contents. -/
structure BusResult where
  ret : Int
  buf : RawFrame
deriving DecidableEq

/-- read_aht20 of mqcensor.c lines 129 to 153: convert the frame when the
read returned SUCCESS, return the failure sentinel otherwise; it never
raises, all faults become data. -/
def read_aht20 (b : BusResult) : AHT22Result :=
  if b.ret = SUCCESS then convert b.buf else FAILRESULT

/-- Decimal digit character, code point 48 + d for d < 10. -/
def digitChar (d : Nat) : Char := Char.ofNat (48 + d)

/-- Fuel driven decimal rendering of a natural number, most significant digit
first; the fuel argument only guarantees structural termination and is
adequate whenever fuel >= n. -/
def decDigitsAux : Nat → Nat → List Char
  | 0, n => [digitChar (n % 10)]
  | fuel + 1, n =>
    if n < 10 then [digitChar n]
    else decDigitsAux fuel (n / 10) ++ [digitChar (n % 10)]

/-- Decimal rendering of a natural number. -/
def decDigits (n : Nat) : List Char := decDigitsAux n n

/-- Rendering of a float with printf format %.1f: the value rounded to the
nearest tenth, written with exactly one digit after the decimal point. -/
def fmt1 (q : ℚ) : String :=
  (if round (q * 10) < 0 then "-" else "") ++
    String.mk (decDigits ((round (q * 10)).natAbs / 10)) ++ "." ++
    String.mk (decDigits ((round (q * 10)).natAbs % 10))

/-- Number of bytes of the UTF-8 encoding of a character. -/
def charBytes (c : Char) : Nat :=
  if c.toNat < 128 then 1
  else if c.toNat < 2048 then 2
  else if c.toNat < 65536 then 3
  else 4

/-- Number of bytes snprintf writes for a string (excluding the NUL). -/
def strBytes (s : String) : Nat := (s.data.map charBytes).sum

/-- The payload formatting of mqcensor.c lines 284 to 291: the literal
"failed" for a failed reading, otherwise the snprintf format
"Temp=%.1f°C Hum=%.1f%%"; the buffer is char payload[64]. -/
def format_payload (r : AHT22Result) : String :=
  if is_failed r then "failed"
  else "Temp=" ++ fmt1 r.temp ++ "°C Hum=" ++ fmt1 r.hum ++ "%"

/-- The payload formatting of src/unnamed/part_000 lines 170 to 177, textually
identical to the full variant but driven by the simpler classifier. -/
def format_payload_simple (r : AHT22Result) : String :=
  if is_failed_simple r then "failed"
  else "Temp=" ++ fmt1 r.temp ++ "°C Hum=" ++ fmt1 r.hum ++ "%"

/-- The health predicate evaluated at mqcensor.c line 264:
link_is_up() && mqtt_connected, re-evaluated from the two external boolean
signals on every cycle. -/
def is_healthy (linkUp mqttConnected : Bool) : Bool := linkUp && mqttConnected

/-- Environment inputs consumed by one iteration of the main loop: the two
health signals sampled at the start of the cycle, the outcome the
environment gives to wifi_mqtt_conn_init if it is invoked, and the outcome
of the i2c transaction if the sensor is read. -/
structure CycleInput where
  linkUp : Bool
  mqttConnected : Bool
  reconnectOk : Bool
  sensor : BusResult
deriving DecidableEq

/-- State carried across iterations of the main loop of mqcensor.c lines 261
to 297, plus instrumentation counters recording the externally visible calls
(watchdog feeds, wireless connect attempts, published payloads, the reboot
request). scratch mirrors watchdog_hw->scratch[0], which no loop code
touches. -/
structure LoopState where
  now : Nat
  lastOk : Nat
  scratch : Nat
  rebooted : Bool
  rebootTime : Option Nat
  feeds : Nat
  wifiCalls : Nat
  published : List String
deriving DecidableEq

/-- Loop state at entry of the main loop: last_ok = get_absolute_time() at
mqcensor.c line 260, nothing requested or published yet. -/
def initState (t0 scratch0 : Nat) : LoopState :=
  { now := t0, lastOk := t0, scratch := scratch0, rebooted := false,
    rebootTime := none, feeds := 0, wifiCalls := 0, published := [] }

/-- Tail of one loop iteration from mqcensor.c line 278: the deadline check
(only outside safe mode), then sensor read, payload formatting, publish and
the fixed sleep. request_reboot_now never returns, so the reboot branch
freezes the state and records the request instant. -/
def stepTail (safeMode : Bool) (i : CycleInput) (s : LoopState) : LoopState :=
  if !safeMode && ms_passed s.lastOk s.now DEADLINE_MS then
    { s with rebooted := true, rebootTime := some s.now }
  else
    { s with published := format_payload (read_aht20 i.sensor) :: s.published,
             now := s.now + CYCLE_MS }

/-- One iteration of the main loop of mqcensor.c lines 261 to 297: feed the
watchdog, evaluate the health predicate; when healthy refresh last_ok, when
unhealthy call wifi_mqtt_conn_init (which always issues the wireless connect
first) and, if that fails, sleep and continue, skipping the rest of the
iteration including the deadline check. -/
def step (safeMode : Bool) (i : CycleInput) (s : LoopState) : LoopState :=
  if s.rebooted then s
  else if is_healthy i.linkUp i.mqttConnected then
    stepTail safeMode i { s with feeds := s.feeds + 1, lastOk := s.now }
  else if i.reconnectOk then
    stepTail safeMode i { s with feeds := s.feeds + 1, wifiCalls := s.wifiCalls + 1 }
  else
    { s with feeds := s.feeds + 1, wifiCalls := s.wifiCalls + 1,
             now := s.now + CYCLE_MS }

/-- The main loop run over a finite list of per-cycle environment inputs. -/
def run (safeMode : Bool) (tr : List CycleInput) (s : LoopState) : LoopState :=
  tr.foldl (fun s i => step safeMode i s) s

/-- Externally visible effects of the startup phase, mqcensor.c lines 213 to
229: in safe mode the wireless connect loop is skipped and the radio is
explicitly brought down with cyw43_wifi_set_up(..., false, ...); in normal
mode wifi_connect is retried until it succeeds, so the environment chooses
how many failed attempts precede the successful one. -/
structure StartupObs where
  radioDisabled : Bool
  wifiCalls : Nat

/-- Startup wireless behaviour as a function of the mode selected by the
bootloop guard. -/
def startup (safeMode : Bool) (wifiFailures : Nat) : StartupObs :=
  if safeMode then { radioDisabled := true, wifiCalls := 0 }
  else { radioDisabled := false, wifiCalls := wifiFailures + 1 }

/-- Worst case delay between the wd_feed of one iteration and the wd_feed of
the next, as a function of the branch taken and of the actual blocking times
the environment chooses for the wireless connect and the two i2c transfers
(each bounded by its timeout). The healthy branch runs the sensor read and
the fixed sleep; the soft recovery branch additionally blocks in
wifi_connect; a failed recovery sleeps and restarts the loop. -/
def iterFeedGapMs (healthy reconnectOk : Bool) (wifiBlock i2cw i2cr : Nat) : Nat :=
  if healthy then i2cw + SENSOR_SETTLE_MS + i2cr + CYCLE_MS
  else if reconnectOk then wifiBlock + i2cw + SENSOR_SETTLE_MS + i2cr + CYCLE_MS
  else wifiBlock + CYCLE_MS

lemma run_nil (m : Bool) (s : LoopState) : run m [] s = s := rfl

lemma run_cons (m : Bool) (i : CycleInput) (tr : List CycleInput) (s : LoopState) :
    run m (i :: tr) s = run m tr (step m i s) := rfl

lemma run_append (m : Bool) (a b : List CycleInput) (s : LoopState) :
    run m (a ++ b) s = run m b (run m a s) := by
  simp [run, List.foldl_append]

lemma step_of_rebooted (m : Bool) (i : CycleInput) (s : LoopState)
    (h : s.rebooted = true) : step m i s = s := by
  simp [step, h]

lemma run_frozen (m : Bool) (tr : List CycleInput) (s : LoopState)
    (h : s.rebooted = true) : run m tr s = s := by
  induction tr with
  | nil => rfl
  | cons i tr ih => rw [run_cons, step_of_rebooted m i s h, ih]

lemma step_scratch (m : Bool) (i : CycleInput) (s : LoopState) :
    (step m i s).scratch = s.scratch := by
  unfold step stepTail
  repeat' split
  all_goals rfl

lemma run_scratch (m : Bool) (tr : List CycleInput) (s : LoopState) :
    (run m tr s).scratch = s.scratch := by
  induction tr generalizing s with
  | nil => rfl
  | cons i tr ih => rw [run_cons, ih, step_scratch]

lemma step_feeds (m : Bool) (i : CycleInput) (s : LoopState)
    (h : s.rebooted = false) : (step m i s).feeds = s.feeds + 1 := by
  unfold step stepTail
  rw [h]
  repeat' split
  all_goals simp_all

lemma step_safe_rebooted (i : CycleInput) (s : LoopState)
    (h : s.rebooted = false) :
    (step true i s).rebooted = false ∧ (step true i s).rebootTime = s.rebootTime := by
  unfold step stepTail
  rw [h]
  repeat' split
  all_goals simp_all

lemma run_safe_no_reboot (tr : List CycleInput) (s : LoopState)
    (h1 : s.rebooted = false) (h2 : s.rebootTime = none) :
    (run true tr s).rebooted = false ∧ (run true tr s).rebootTime = none := by
  induction tr generalizing s with
  | nil => exact ⟨h1, h2⟩
  | cons i tr ih =>
    rw [run_cons]
    obtain ⟨ha, hb⟩ := step_safe_rebooted i s h1
    exact ih (step true i s) ha (hb.trans h2)

lemma step_unhealthy_ok_no_deadline (i : CycleInput) (s : LoopState)
    (hreb : s.rebooted = false)
    (hun : is_healthy i.linkUp i.mqttConnected = false)
    (hok : i.reconnectOk = true)
    (hms : ms_passed s.lastOk s.now DEADLINE_MS = false) :
    step false i s =
      { s with feeds := s.feeds + 1, wifiCalls := s.wifiCalls + 1,
               published := format_payload (read_aht20 i.sensor) :: s.published,
               now := s.now + CYCLE_MS } := by
  unfold step stepTail
  rw [hreb, hun, hok]
  simp [hms]

lemma step_unhealthy_ok_deadline (i : CycleInput) (s : LoopState)
    (hreb : s.rebooted = false)
    (hun : is_healthy i.linkUp i.mqttConnected = false)
    (hok : i.reconnectOk = true)
    (hms : ms_passed s.lastOk s.now DEADLINE_MS = true) :
    step false i s =
      { s with feeds := s.feeds + 1, wifiCalls := s.wifiCalls + 1,
               rebooted := true, rebootTime := some s.now } := by
  unfold step stepTail
  rw [hreb, hun, hok]
  simp [hms]

lemma run_unhealthy_inv (tr : List CycleInput)
    (hbad : ∀ i ∈ tr, is_healthy i.linkUp i.mqttConnected = false ∧ i.reconnectOk = true)
    (s : LoopState) (k : Nat)
    (hreb : s.rebooted = false) (hrt : s.rebootTime = none)
    (hnow : s.now = s.lastOk + CYCLE_MS * k) (hk : k + tr.length ≤ 301) :
    (run false tr s).rebooted = false ∧ (run false tr s).rebootTime = none ∧
    (run false tr s).lastOk = s.lastOk ∧
    (run false tr s).now = s.lastOk + CYCLE_MS * (k + tr.length) := by
  induction tr generalizing s k with
  | nil =>
    refine ⟨hreb, hrt, rfl, ?_⟩
    simpa using hnow
  | cons i tr ih =>
    obtain ⟨hun, hok⟩ := hbad i (List.mem_cons_self i tr)
    have hk300 : k ≤ 300 := by
      simp only [List.length_cons] at hk
      omega
    have hms : ms_passed s.lastOk s.now DEADLINE_MS = false := by
      simp only [ms_passed, hnow, CYCLE_MS, DEADLINE_MS, decide_eq_false_iff_not]
      omega
    rw [run_cons, step_unhealthy_ok_no_deadline i s hreb hun hok hms]
    have hrec := ih (fun j hj => hbad j (List.mem_cons_of_mem i hj))
      { s with feeds := s.feeds + 1, wifiCalls := s.wifiCalls + 1,
               published := format_payload (read_aht20 i.sensor) :: s.published,
               now := s.now + CYCLE_MS }
      (k + 1) (by simp [hreb]) (by simp [hrt])
      (by simp only [hnow, CYCLE_MS]; ring)
      (by simp only [List.length_cons] at hk ⊢; omega)
    refine ⟨hrec.1, hrec.2.1, hrec.2.2.1, ?_⟩
    rw [hrec.2.2.2]
    simp only [List.length_cons]
    ring

lemma run_unhealthy_reboot (t0 scratch0 : Nat) (tr : List CycleInput)
    (hbad : ∀ i ∈ tr, is_healthy i.linkUp i.mqttConnected = false ∧ i.reconnectOk = true)
    (hlen : 302 ≤ tr.length) :
    (run false tr (initState t0 scratch0)).rebooted = true ∧
    (run false tr (initState t0 scratch0)).rebootTime = some (t0 + DEADLINE_MS + CYCLE_MS) ∧
    (run false tr (initState t0 scratch0)).lastOk = t0 := by
  obtain ⟨j, rest, hdrop⟩ : ∃ j rest, tr.drop 301 = j :: rest := by
    cases hd : tr.drop 301 with
    | nil =>
      have := List.length_drop 301 tr
      rw [hd] at this
      simp at this
      omega
    | cons j rest => exact ⟨j, rest, rfl⟩
  have hsplit : tr = tr.take 301 ++ (j :: rest) := by
    rw [← hdrop, List.take_append_drop]
  have hmid := run_unhealthy_inv (tr.take 301)
    (fun x hx => hbad x (List.take_subset 301 tr hx))
    (initState t0 scratch0) 0 rfl rfl (by simp [initState]) ?_
  · set mid := run false (tr.take 301) (initState t0 scratch0) with hmiddef
    have htake : (tr.take 301).length = 301 := by
      rw [List.length_take]
      omega
    have hmidnow : mid.now = t0 + 301000 := by
      have := hmid.2.2.2
      rw [htake] at this
      simpa [initState, CYCLE_MS] using this
    have hmidlast : mid.lastOk = t0 := by
      simpa [initState] using hmid.2.2.1
    have hj : is_healthy j.linkUp j.mqttConnected = false ∧ j.reconnectOk = true := by
      refine hbad j ?_
      rw [hsplit]
      exact List.mem_append_right _ (List.mem_cons_self j rest)
    have hms : ms_passed mid.lastOk mid.now DEADLINE_MS = true := by
      rw [hmidlast, hmidnow]
      simp [ms_passed, DEADLINE_MS]
    have hstepj := step_unhealthy_ok_deadline j mid hmid.1 hj.1 hj.2 hms
    have hfinal : run false tr (initState t0 scratch0) =
        { mid with feeds := mid.feeds + 1, wifiCalls := mid.wifiCalls + 1,
                   rebooted := true, rebootTime := some mid.now } := by
      conv_lhs => rw [hsplit]
      rw [run_append, ← hmiddef, run_cons, hstepj, run_frozen]
      rfl
    rw [hfinal]
    refine ⟨rfl, ?_, hmidlast⟩
    simp only [hmidnow, DEADLINE_MS, CYCLE_MS]
  · rw [List.length_take]
    omega

lemma step_lastOk_healthy (m : Bool) (i : CycleInput) (s : LoopState)
    (hreb : s.rebooted = false)
    (hh : is_healthy i.linkUp i.mqttConnected = true) :
    (step m i s).lastOk = s.now := by
  unfold step stepTail
  rw [hreb, hh]
  repeat' split
  all_goals simp_all

lemma step_lastOk_unhealthy (m : Bool) (i : CycleInput) (s : LoopState)
    (hreb : s.rebooted = false)
    (hh : is_healthy i.linkUp i.mqttConnected = false) :
    (step m i s).lastOk = s.lastOk := by
  unfold step stepTail
  rw [hreb, hh]
  repeat' split
  all_goals simp_all

lemma ms_passed_self (x d : Nat) : ms_passed x x d = false := by
  simp [ms_passed]

lemma is_failed_FAILRESULT : is_failed FAILRESULT = true := by
  simp [is_failed, FAILRESULT]

lemma format_payload_FAILRESULT : format_payload FAILRESULT = "failed" := by
  rw [format_payload, if_pos is_failed_FAILRESULT]

lemma read_aht20_fail (b : BusResult) (h : b.ret ≠ SUCCESS) :
    read_aht20 b = FAILRESULT := by
  rw [read_aht20, if_neg h]

lemma step_publish_failed (m : Bool) (i : CycleInput) (s : LoopState)
    (hreb : s.rebooted = false)
    (hsens : i.sensor.ret ≠ SUCCESS)
    (hreach : is_healthy i.linkUp i.mqttConnected = true ∨ i.reconnectOk = true)
    (hms : ms_passed s.lastOk s.now DEADLINE_MS = false) :
    (step m i s).published = "failed" :: s.published ∧
    (step m i s).now = s.now + CYCLE_MS := by
  have hpay : format_payload (read_aht20 i.sensor) = "failed" := by
    rw [read_aht20_fail i.sensor hsens, format_payload_FAILRESULT]
  rcases hreach with hh | hok
  · unfold step stepTail
    rw [hreb, hh]
    simp [ms_passed_self, hpay]
  · unfold step stepTail
    rw [hreb, hok]
    rcases hhealth : is_healthy i.linkUp i.mqttConnected with _ | _
    · simp [hms, hpay]
    · simp [ms_passed_self, hpay]

lemma bootsAfter_replicate_true (c n : Nat) (h : c + n < UINT32_MOD) :
    bootsAfter c (List.replicate n true) = c + n := by
  induction n generalizing c with
  | zero => simp [bootsAfter]
  | succ n ih =>
    rw [List.replicate_succ]
    have hstep : wd_bootloop_next c true = c + 1 := by
      rw [wd_bootloop_next, if_pos rfl, Nat.mod_eq_of_lt (by omega)]
    show bootsAfter (wd_bootloop_next c true) (List.replicate n true) = c + (n + 1)
    rw [hstep, ih (c + 1) (by omega)]
    omega

lemma charBytes_digitChar (d : Nat) (h : d < 10) : charBytes (digitChar d) = 1 := by
  interval_cases d <;> rfl

lemma decDigitsAux_bytes (fuel n : Nat) (h : n ≤ fuel) :
    ((decDigitsAux fuel n).map charBytes).sum = (decDigitsAux fuel n).length := by
  induction fuel generalizing n with
  | zero =>
    simp [decDigitsAux, charBytes_digitChar (n % 10) (Nat.mod_lt n (by omega))]
  | succ fuel ih =>
    simp only [decDigitsAux]
    split
    · next h10 => simp [charBytes_digitChar n h10]
    · next h10 =>
      have hle : n / 10 ≤ fuel := by omega
      simp [List.map_append, List.sum_append, ih (n / 10) hle,
        charBytes_digitChar (n % 10) (Nat.mod_lt n (by omega))]

lemma decDigitsAux_len1 (fuel n : Nat) (h : n < 10) :
    (decDigitsAux fuel n).length = 1 := by
  cases fuel with
  | zero => rfl
  | succ fuel => simp [decDigitsAux, h]

lemma decDigitsAux_len2 (fuel n : Nat) (h : n < 100) :
    (decDigitsAux fuel n).length ≤ 2 := by
  cases fuel with
  | zero => simp [decDigitsAux]
  | succ fuel =>
    by_cases h10 : n < 10
    · simp [decDigitsAux, h10]
    · simp [decDigitsAux, h10, decDigitsAux_len1 fuel (n / 10) (by omega)]

lemma decDigitsAux_len3 (fuel n : Nat) (h : n < 1000) :
    (decDigitsAux fuel n).length ≤ 3 := by
  cases fuel with
  | zero => simp [decDigitsAux]
  | succ fuel =>
    by_cases h10 : n < 10
    · simp [decDigitsAux, h10]
    · have := decDigitsAux_len2 fuel (n / 10) (by omega)
      simp [decDigitsAux, h10]
      omega

lemma strBytes_mk (l : List Char) : strBytes (String.mk l) = (l.map charBytes).sum := rfl

lemma strBytes_append (a b : String) : strBytes (a ++ b) = strBytes a + strBytes b := by
  simp [strBytes, String.data_append]

lemma strBytes_decDigits_le3 (n : Nat) (h : n < 1000) :
    strBytes (String.mk (decDigits n)) ≤ 3 := by
  rw [strBytes_mk, decDigits, decDigitsAux_bytes n n le_rfl]
  exact decDigitsAux_len3 n n h

lemma strBytes_decDigits_eq1 (n : Nat) (h : n < 10) :
    strBytes (String.mk (decDigits n)) = 1 := by
  rw [strBytes_mk, decDigits, decDigitsAux_bytes n n le_rfl]
  exact decDigitsAux_len1 n n h

lemma round_bounds (q : ℚ) (h1 : -50 ≤ q) (h2 : q < 150) :
    -500 ≤ round (q * 10) ∧ round (q * 10) ≤ 1500 := by
  rw [round_eq]
  constructor
  · rw [Int.le_floor]
    push_cast
    linarith
  · have hlt : (⌊q * 10 + 1 / 2⌋ : ℤ) < 1501 := by
      rw [Int.floor_lt]
      push_cast
      linarith
    omega

lemma strBytes_fmt1_le (q : ℚ) (h1 : -50 ≤ q) (h2 : q < 150) :
    strBytes (fmt1 q) ≤ 6 := by
  obtain ⟨hlo, hhi⟩ := round_bounds q h1 h2
  rw [fmt1, strBytes_append, strBytes_append, strBytes_append]
  have ha : (round (q * 10)).natAbs ≤ 1500 := by omega
  have hsign : strBytes (if round (q * 10) < 0 then "-" else "") ≤ 1 := by
    split
    · decide
    · decide
  have hint : strBytes (String.mk (decDigits ((round (q * 10)).natAbs / 10))) ≤ 3 :=
    strBytes_decDigits_le3 _ (by omega)
  have hfrac : strBytes (String.mk (decDigits ((round (q * 10)).natAbs % 10))) = 1 :=
    strBytes_decDigits_eq1 _ (Nat.mod_lt _ (by omega))
  have hdot : strBytes "." = 1 := by decide
  omega

lemma raw_h_lt (f : RawFrame) (h1 : f.b1 < 256) (h2 : f.b2 < 256) (h3 : f.b3 < 256) :
    raw_h f < 1048576 := by
  have ha : f.b1 <<< 12 < 2 ^ 20 := by
    rw [Nat.shiftLeft_eq]
    norm_num
    omega
  have hb : f.b2 <<< 4 < 2 ^ 20 := by
    rw [Nat.shiftLeft_eq]
    norm_num
    omega
  have hc : f.b3 >>> 4 < 2 ^ 20 := by
    rw [Nat.shiftRight_eq_div_pow]
    norm_num
    omega
  have := Nat.or_lt_two_pow (Nat.or_lt_two_pow ha hb) hc
  simpa [raw_h] using this

lemma raw_t_lt (f : RawFrame) (h3 : f.b3 < 256) (h4 : f.b4 < 256) (h5 : f.b5 < 256) :
    raw_t f < 1048576 := by
  have ha : (f.b3 &&& 15) <<< 16 < 2 ^ 20 := by
    rw [Nat.shiftLeft_eq]
    have : f.b3 &&& 15 ≤ 15 := Nat.and_le_right
    norm_num
    omega
  have hb : f.b4 <<< 8 < 2 ^ 20 := by
    rw [Nat.shiftLeft_eq]
    norm_num
    omega
  have hc : f.b5 < 2 ^ 20 := by
    norm_num
    omega
  have := Nat.or_lt_two_pow (Nat.or_lt_two_pow ha hb) hc
  simpa [raw_t] using this

lemma convert_ranges (f : RawFrame) (h1 : f.b1 < 256) (h2 : f.b2 < 256)
    (h3 : f.b3 < 256) (h4 : f.b4 < 256) (h5 : f.b5 < 256) :
    0 ≤ (convert f).hum ∧ (convert f).hum < 100 ∧
    -50 ≤ (convert f).temp ∧ (convert f).temp < 150 := by
  have hh := raw_h_lt f h1 h2 h3
  have ht := raw_t_lt f h3 h4 h5
  have hhq : (raw_h f : ℚ) < 1048576 := by exact_mod_cast hh
  have htq : (raw_t f : ℚ) < 1048576 := by exact_mod_cast ht
  have hh0 : (0 : ℚ) ≤ (raw_h f : ℚ) := Nat.cast_nonneg _
  have ht0 : (0 : ℚ) ≤ (raw_t f : ℚ) := Nat.cast_nonneg _
  refine ⟨?_, ?_, ?_, ?_⟩
  · show (0 : ℚ) ≤ (raw_h f : ℚ) * 100 / 1048576
    positivity
  · show (raw_h f : ℚ) * 100 / 1048576 < 100
    rw [div_lt_iff (by norm_num : (0 : ℚ) < 1048576)]
    linarith
  · show (-50 : ℚ) ≤ (raw_t f : ℚ) * 200 / 1048576 - 50
    have : (0 : ℚ) ≤ (raw_t f : ℚ) * 200 / 1048576 := by positivity
    linarith
  · show (raw_t f : ℚ) * 200 / 1048576 - 50 < 150
    have : (raw_t f : ℚ) * 200 / 1048576 < 200 := by
      rw [div_lt_iff (by norm_num : (0 : ℚ) < 1048576)]
      linarith
    linarith

lemma is_failed_convert (f : RawFrame) (h1 : f.b1 < 256) (h2 : f.b2 < 256)
    (h3 : f.b3 < 256) (h4 : f.b4 < 256) (h5 : f.b5 < 256) :
    is_failed (convert f) = false := by
  obtain ⟨ha, hb, hc, hd⟩ := convert_ranges f h1 h2 h3 h4 h5
  simp only [is_failed, Bool.or_eq_false_iff, decide_eq_false_iff_not]
  constructor
  · intro he
    rw [he] at ha
    norm_num at ha
  · intro hle
    linarith

lemma step_unhealthy_fail (i : CycleInput) (s : LoopState)
    (hreb : s.rebooted = false)
    (hun : is_healthy i.linkUp i.mqttConnected = false)
    (hok : i.reconnectOk = false) :
    step false i s =
      { s with feeds := s.feeds + 1, wifiCalls := s.wifiCalls + 1,
               now := s.now + CYCLE_MS } := by
  unfold step
  rw [hreb, hun, hok]
  simp

lemma run_reconnect_fail_inv (tr : List CycleInput)
    (hbad : ∀ i ∈ tr, is_healthy i.linkUp i.mqttConnected = false ∧ i.reconnectOk = false)
    (s : LoopState) (hreb : s.rebooted = false) (hrt : s.rebootTime = none) :
    (run false tr s).rebooted = false ∧ (run false tr s).rebootTime = none ∧
    (run false tr s).now = s.now + CYCLE_MS * tr.length := by
  induction tr generalizing s with
  | nil => simp [run_nil, hreb, hrt]
  | cons i tr ih =>
    obtain ⟨hun, hok⟩ := hbad i (List.mem_cons_self i tr)
    rw [run_cons, step_unhealthy_fail i s hreb hun hok]
    have hrec := ih (fun j hj => hbad j (List.mem_cons_of_mem i hj))
      { s with feeds := s.feeds + 1, wifiCalls := s.wifiCalls + 1,
               now := s.now + CYCLE_MS }
      (by simp [hreb]) (by simp [hrt])
    refine ⟨hrec.1, hrec.2.1, ?_⟩
    rw [hrec.2.2]
    simp only [List.length_cons]
    ring

lemma temp_string_ne_failed (a b : String) :
    "Temp=" ++ a ++ "°C Hum=" ++ b ++ "%" ≠ "failed" := by
  intro h
  have hb := congrArg strBytes h
  rw [strBytes_append, strBytes_append, strBytes_append, strBytes_append] at hb
  have l1 : strBytes "Temp=" = 5 := by decide
  have l2 : strBytes "°C Hum=" = 8 := by decide
  have l3 : strBytes "%" = 1 := by decide
  have l4 : strBytes "failed" = 6 := by decide
  omega

lemma convert_zero : convert ⟨0, 0, 0, 0, 0, 0⟩ = ⟨-50, 0⟩ := by
  rw [convert]
  norm_num [raw_h, raw_t]

/-- Claim C1 (amended): in Normal mode, when the health predicate is false at
every cycle after the last healthy instant AND the soft-recovery attempt
reports success on every such cycle, the controller issues the deliberate
reboot request exactly once, at DEADLINE_MS + CYCLE_MS after the last
healthy instant, hence no earlier than DEADLINE_MS and no later than
DEADLINE_MS plus one cycle period; the state freezes afterwards (the request
cannot recur), and in Safe Mode the request is never issued. The amendment
is forced by the source: when the soft-recovery attempt fails, the continue
at mqcensor.c line 274 skips the deadline check, so with reconnection
failing continuously no reboot is ever requested (see the counterexample). -/
theorem c1_reboot_window_amended (t0 scratch0 : Nat) (tr : List CycleInput)
    (hbad : ∀ i ∈ tr, is_healthy i.linkUp i.mqttConnected = false ∧ i.reconnectOk = true)
    (hlen : 302 ≤ tr.length) :
    (run false tr (initState t0 scratch0)).lastOk = t0 ∧
    (run false tr (initState t0 scratch0)).rebooted = true ∧
    (run false tr (initState t0 scratch0)).rebootTime = some (t0 + DEADLINE_MS + CYCLE_MS) ∧
    DEADLINE_MS ≤ (t0 + DEADLINE_MS + CYCLE_MS) - t0 ∧
    (t0 + DEADLINE_MS + CYCLE_MS) - t0 ≤ DEADLINE_MS + CYCLE_MS ∧
    (∀ (j : CycleInput) (s2 : LoopState), s2.rebooted = true → step false j s2 = s2) ∧
    (∀ (tr2 : List CycleInput) (s2 : LoopState), s2.rebooted = false →
      s2.rebootTime = none → (run true tr2 s2).rebootTime = none) := by
  obtain ⟨hrb, hrt, hlast⟩ := run_unhealthy_reboot t0 scratch0 tr hbad hlen
  exact ⟨hlast, hrb, hrt, by omega, by omega,
    fun j s2 h => step_of_rebooted false j s2 h,
    fun tr2 s2 ha hb => (run_safe_no_reboot tr2 s2 ha hb).2⟩

theorem c1_reboot_window_amended_witness :
    (run false (List.replicate 302 ⟨false, false, true, ⟨0, ⟨0, 0, 0, 0, 0, 0⟩⟩⟩)
      (initState 0 0)).rebootTime = some (0 + DEADLINE_MS + CYCLE_MS) :=
  (c1_reboot_window_amended 0 0
    (List.replicate 302 ⟨false, false, true, ⟨0, ⟨0, 0, 0, 0, 0, 0⟩⟩⟩)
    (fun i hi => by rw [List.eq_of_mem_replicate hi]; exact ⟨rfl, rfl⟩)
    (le_of_eq (List.length_replicate 302 _).symm)).2.2.1

/-- Claim C1 counterexample: a Normal-mode run whose health predicate is
false at every cycle after the initial instant (and whose soft-recovery
attempt fails every cycle) reaches 400000 ms, well past
DEADLINE_MS + CYCLE_MS after the last healthy instant 0, with no deliberate
reboot request ever issued, refuting the claim as stated. -/
theorem c1_reboot_skipped_counterexample :
    (run false (List.replicate 400 ⟨false, false, false, ⟨0, ⟨0, 0, 0, 0, 0, 0⟩⟩⟩)
      (initState 0 0)).rebootTime = none ∧
    (run false (List.replicate 400 ⟨false, false, false, ⟨0, ⟨0, 0, 0, 0, 0, 0⟩⟩⟩)
      (initState 0 0)).now = 400000 ∧
    DEADLINE_MS + CYCLE_MS < 400000 := by
  have h := run_reconnect_fail_inv
    (List.replicate 400 ⟨false, false, false, ⟨0, ⟨0, 0, 0, 0, 0, 0⟩⟩⟩)
    (fun i hi => by rw [List.eq_of_mem_replicate hi]; exact ⟨rfl, rfl⟩)
    (initState 0 0) rfl rfl
  refine ⟨h.2.1, ?_, by decide⟩
  rw [h.2.2, List.length_replicate]
  simp [initState, CYCLE_MS]

/-- Claim C2 (amended): when Safe Mode is selected at startup, the startup
phase issues no wireless-connect call and explicitly disables the radio
before the main loop starts, and the deliberate-reboot escalation is never
issued for the life of the process; however the claim as stated is false,
because the in-loop soft-recovery path (mqcensor.c line 270) is not guarded
by safe_mode and issues a wireless-connect call on every unhealthy loop
cycle (see the counterexample). -/
theorem c2_safe_mode_amended (n : Nat) (tr : List CycleInput) (s : LoopState)
    (h1 : s.rebooted = false) (h2 : s.rebootTime = none) :
    (startup true n).wifiCalls = 0 ∧
    (startup true n).radioDisabled = true ∧
    (run true tr s).rebooted = false ∧
    (run true tr s).rebootTime = none := by
  obtain ⟨ha, hb⟩ := run_safe_no_reboot tr s h1 h2
  exact ⟨rfl, rfl, ha, hb⟩

theorem c2_safe_mode_amended_witness :
    (run true [⟨false, false, false, ⟨0, ⟨0, 0, 0, 0, 0, 0⟩⟩⟩]
      (initState 0 0)).rebootTime = none :=
  (c2_safe_mode_amended 0 [⟨false, false, false, ⟨0, ⟨0, 0, 0, 0, 0, 0⟩⟩⟩]
    (initState 0 0) rfl rfl).2.2.2

/-- Claim C2 counterexample: one unhealthy loop cycle executed in Safe Mode
issues a wireless-connect call (wifiCalls goes from 0 to 1), refuting the
claim that no wireless-connect call is ever issued in Safe Mode. -/
theorem c2_safe_mode_counterexample :
    (run true [⟨false, false, false, ⟨0, ⟨0, 0, 0, 0, 0, 0⟩⟩⟩]
      (initState 0 0)).wifiCalls = 1 := by
  decide

/-- Claim C3: the bootloop guard computes the new persisted counter as
counter + 1 when the boot was watchdog caused (within the 32-bit range of
the scratch register) and 0 otherwise, so n consecutive watchdog-caused
boots starting from a cleared counter yield counter = n; Safe Mode is
selected iff the new counter is at least SAFE_REBOOTS = 5; and the scratch
register is never written again during the process lifetime (no loop
iteration touches it). -/
theorem c3_bootloop_guard (c n : Nat) (hn : n < UINT32_MOD) (hc : c + 1 < UINT32_MOD) :
    wd_bootloop_next c false = 0 ∧
    wd_bootloop_next c true = c + 1 ∧
    bootsAfter 0 (List.replicate n true) = n ∧
    ((wd_init_and_bootloop_guard c true).2 = true ↔
      SAFE_REBOOTS ≤ (wd_init_and_bootloop_guard c true).1) ∧
    ((wd_init_and_bootloop_guard c false).2 = true ↔
      SAFE_REBOOTS ≤ (wd_init_and_bootloop_guard c false).1) ∧
    (∀ (m : Bool) (tr : List CycleInput) (s : LoopState),
      (run m tr s).scratch = s.scratch) := by
  refine ⟨rfl, ?_, ?_, by simp [wd_init_and_bootloop_guard],
    by simp [wd_init_and_bootloop_guard], fun m tr s => run_scratch m tr s⟩
  · rw [wd_bootloop_next, if_pos rfl, Nat.mod_eq_of_lt hc]
  · simpa using bootsAfter_replicate_true 0 n (by omega)

theorem c3_bootloop_guard_witness :
    bootsAfter 0 (List.replicate 5 true) = 5 :=
  (c3_bootloop_guard 3 5 (by decide) (by decide)).2.2.1

/-- Claim C4 (amended): the watchdog is fed exactly once per loop iteration;
on iterations that do not attempt soft recovery the time between two
consecutive feeds is bounded by the sensor-transfer timeouts plus the settle
delay plus the fixed sleep, which is strictly below the 8000 ms armed
timeout; but on soft-recovery iterations the blocking wireless connect
(30000 ms timeout at mqcensor.c line 86) makes the gap reach up to 31086 ms,
exceeding the armed timeout, so the claim as stated is false (see the
counterexample). -/
theorem c4_feed_gap_amended (healthy reconnectOk : Bool) (wifiBlock i2cw i2cr : Nat)
    (hw : wifiBlock ≤ WIFI_CONNECT_TIMEOUT_MS)
    (hcw : i2cw ≤ I2C_XFER_TIMEOUT_MS) (hcr : i2cr ≤ I2C_XFER_TIMEOUT_MS) :
    (∀ (m : Bool) (i : CycleInput) (s : LoopState), s.rebooted = false →
      (step m i s).feeds = s.feeds + 1) ∧
    (healthy = true →
      iterFeedGapMs healthy reconnectOk wifiBlock i2cw i2cr < WD_TIMEOUT_MS) ∧
    iterFeedGapMs healthy reconnectOk wifiBlock i2cw i2cr ≤
      WIFI_CONNECT_TIMEOUT_MS + 2 * I2C_XFER_TIMEOUT_MS + SENSOR_SETTLE_MS + CYCLE_MS := by
  refine ⟨fun m i s h => step_feeds m i s h, ?_, ?_⟩
  · intro hh
    rw [iterFeedGapMs, if_pos hh]
    simp only [WD_TIMEOUT_MS, SENSOR_SETTLE_MS, CYCLE_MS, I2C_XFER_TIMEOUT_MS] at hcw hcr ⊢
    omega
  · rw [iterFeedGapMs]
    simp only [WIFI_CONNECT_TIMEOUT_MS, I2C_XFER_TIMEOUT_MS, SENSOR_SETTLE_MS,
      CYCLE_MS] at hw hcw hcr ⊢
    split
    · omega
    · split <;> omega

theorem c4_feed_gap_amended_witness :
    iterFeedGapMs true true 0 3 3 < WD_TIMEOUT_MS :=
  (c4_feed_gap_amended true true 0 3 3 (by decide) (by decide) (by decide)).2.1 rfl

/-- Claim C4 counterexample: a soft-recovery iteration whose wireless
connect blocks for the full 30000 ms timeout leaves a 31000 ms gap between
consecutive watchdog feeds, exceeding the 8000 ms armed timeout, refuting
the claim that the cadence stays strictly below the timeout on iterations
where soft recovery is attempted. -/
theorem c4_feed_gap_counterexample :
    WD_TIMEOUT_MS < iterFeedGapMs false false WIFI_CONNECT_TIMEOUT_MS 0 0 := by
  decide

/-- Claim C5: last_ok never advances on a cycle whose health predicate is
false, and on every cycle whose health predicate is true it is set to the
current time; in the embedding it is touched only by initState and by the
healthy branch of step, mirroring that only main initializes and updates
last_ok in the source. -/
theorem c5_last_ok (m : Bool) (i : CycleInput) (s : LoopState)
    (hreb : s.rebooted = false) :
    (is_healthy i.linkUp i.mqttConnected = true → (step m i s).lastOk = s.now) ∧
    (is_healthy i.linkUp i.mqttConnected = false → (step m i s).lastOk = s.lastOk) :=
  ⟨fun hh => step_lastOk_healthy m i s hreb hh,
   fun hh => step_lastOk_unhealthy m i s hreb hh⟩

theorem c5_last_ok_witness :
    (step false ⟨true, true, true, ⟨0, ⟨0, 0, 0, 0, 0, 0⟩⟩⟩ (initState 0 0)).lastOk =
      (initState 0 0).now :=
  (c5_last_ok false ⟨true, true, true, ⟨0, ⟨0, 0, 0, 0, 0, 0⟩⟩⟩ (initState 0 0) rfl).1 rfl

/-- Claim C6: the health predicate is true iff both the link-status signal
and the broker-session flag are true, over all four combinations of the two
boolean signals; the loop model evaluates it afresh from the inputs of each
cycle, with no state cached between cycles. -/
theorem c6_health_truth_table :
    (∀ l m : Bool, is_healthy l m = true ↔ l = true ∧ m = true) ∧
    is_healthy true true = true ∧ is_healthy true false = false ∧
    is_healthy false true = false ∧ is_healthy false false = false := by
  decide

/-- Claim C7: on a cycle whose bus transaction fails (return value differs
from SUCCESS), the sensor read returns the failure sentinel as data rather
than raising, and the cycle still produces the literal "failed" payload,
still feeds the watchdog, and still advances by the fixed 1000 ms sleep
interval. The cycle must reach the read, i.e. be healthy or have a
successful reconnect, and not be past the reboot deadline. -/
theorem c7_sensor_failure_cycle (m : Bool) (i : CycleInput) (s : LoopState)
    (hreb : s.rebooted = false)
    (hsens : i.sensor.ret ≠ SUCCESS)
    (hreach : is_healthy i.linkUp i.mqttConnected = true ∨ i.reconnectOk = true)
    (hms : ms_passed s.lastOk s.now DEADLINE_MS = false) :
    read_aht20 i.sensor = FAILRESULT ∧
    format_payload (read_aht20 i.sensor) = "failed" ∧
    (step m i s).feeds = s.feeds + 1 ∧
    (step m i s).published = "failed" :: s.published ∧
    (step m i s).now = s.now + CYCLE_MS := by
  obtain ⟨hp, hn⟩ := step_publish_failed m i s hreb hsens hreach hms
  exact ⟨read_aht20_fail i.sensor hsens,
    by rw [read_aht20_fail i.sensor hsens, format_payload_FAILRESULT],
    step_feeds m i s hreb, hp, hn⟩

theorem c7_sensor_failure_cycle_witness :
    (step false ⟨true, true, true, ⟨0, ⟨0, 0, 0, 0, 0, 0⟩⟩⟩ (initState 0 0)).published =
      "failed" :: (initState 0 0).published :=
  (c7_sensor_failure_cycle false ⟨true, true, true, ⟨0, ⟨0, 0, 0, 0, 0, 0⟩⟩⟩
    (initState 0 0) rfl (by decide) (Or.inl rfl) (by decide)).2.2.2.1

/-- Claim C8: the formatter writes exactly the fixed failure literal for any
failed reading (in particular for the sentinel), otherwise renders both
fields to one decimal place, and for every reading the program constructs
(any bus outcome) the payload byte length is at most 26, which fits the
64-byte buffer without overflow. -/
theorem c8_format_bounded (b : BusResult) (h1 : b.buf.b1 < 256) (h2 : b.buf.b2 < 256)
    (h3 : b.buf.b3 < 256) (h4 : b.buf.b4 < 256) (h5 : b.buf.b5 < 256) :
    (∀ r : AHT22Result, is_failed r = true → format_payload r = "failed") ∧
    strBytes (format_payload (read_aht20 b)) ≤ 26 ∧ 26 < 64 := by
  refine ⟨fun r hr => by rw [format_payload, if_pos hr], ?_, by norm_num⟩
  rw [read_aht20]
  split
  · obtain ⟨hh0, hh100, ht50, ht150⟩ := convert_ranges b.buf h1 h2 h3 h4 h5
    rw [format_payload, if_neg (by simp [is_failed_convert b.buf h1 h2 h3 h4 h5])]
    rw [strBytes_append, strBytes_append, strBytes_append, strBytes_append]
    have ht := strBytes_fmt1_le (convert b.buf).temp ht50 ht150
    have hhm := strBytes_fmt1_le (convert b.buf).hum (by linarith) (by linarith)
    have l1 : strBytes "Temp=" = 5 := by decide
    have l2 : strBytes "°C Hum=" = 8 := by decide
    have l3 : strBytes "%" = 1 := by decide
    omega
  · rw [format_payload_FAILRESULT]
    decide

theorem c8_format_bounded_witness :
    strBytes (format_payload (read_aht20 ⟨6, ⟨0, 0, 0, 0, 0, 0⟩⟩)) ≤ 26 :=
  (c8_format_bounded ⟨6, ⟨0, 0, 0, 0, 0, 0⟩⟩ (by decide) (by decide) (by decide)
    (by decide) (by decide)).2.1

/-- Claim C9: for every successful 6-byte raw response the converted reading
has humidity in the interval from 0 inclusive to 100 exclusive and
temperature in the interval from -50 inclusive to 150 exclusive, the failure
classifier returns false on it, and the classifier returns true on the
sentinel itself, so the sentinel never collides with legal sensor output. -/
theorem c9_sentinel_no_collision (f : RawFrame) (h1 : f.b1 < 256) (h2 : f.b2 < 256)
    (h3 : f.b3 < 256) (h4 : f.b4 < 256) (h5 : f.b5 < 256) :
    0 ≤ (convert f).hum ∧ (convert f).hum < 100 ∧
    -50 ≤ (convert f).temp ∧ (convert f).temp < 150 ∧
    is_failed (convert f) = false ∧ is_failed FAILRESULT = true ∧
    read_aht20 ⟨SUCCESS, f⟩ = convert f := by
  obtain ⟨ha, hb, hc, hd⟩ := convert_ranges f h1 h2 h3 h4 h5
  exact ⟨ha, hb, hc, hd, is_failed_convert f h1 h2 h3 h4 h5, is_failed_FAILRESULT,
    by rw [read_aht20, if_pos rfl]⟩

theorem c9_sentinel_no_collision_witness :
    is_failed (convert ⟨1, 2, 3, 4, 5, 6⟩) = false :=
  (c9_sentinel_no_collision ⟨1, 2, 3, 4, 5, 6⟩ (by decide) (by decide) (by decide)
    (by decide) (by decide)).2.2.2.2.1

/-- Claim C10 (amended): the two variants agree on failure classification
and payload text for every reading with strictly positive humidity and
strictly positive temperature, and both classify the full variant sentinel
as failed; but the claim as stated is false, because the simpler variant
classifies any reading with humidity or temperature equal to or below zero
as failed while the full variant does not (see the counterexample at the
all-zero frame, temperature -50 and humidity 0). -/
theorem c10_variant_agreement_amended (r : AHT22Result) (hh : 0 < r.hum) (ht : 0 < r.temp) :
    is_failed_simple r = is_failed r ∧
    format_payload_simple r = format_payload r ∧
    is_failed_simple FAILRESULT = true ∧ is_failed FAILRESULT = true := by
  have hf : is_failed r = false := by
    simp only [is_failed, Bool.or_eq_false_iff, decide_eq_false_iff_not]
    constructor
    · intro he
      rw [he] at hh
      norm_num at hh
    · intro hle
      linarith
  have hs : is_failed_simple r = false := by
    simp only [is_failed_simple, Bool.or_eq_false_iff, decide_eq_false_iff_not]
    constructor <;> intro hle <;> linarith
  refine ⟨by rw [hf, hs], ?_, ?_, is_failed_FAILRESULT⟩
  · rw [format_payload, format_payload_simple, if_neg (by simp [hs]),
      if_neg (by simp [hf])]
  · simp only [is_failed_simple, FAILRESULT, Bool.or_eq_true, decide_eq_true_eq]
    norm_num

theorem c10_variant_agreement_amended_witness :
    format_payload_simple ⟨20, 55⟩ = format_payload ⟨20, 55⟩ :=
  (c10_variant_agreement_amended ⟨20, 55⟩ (by norm_num) (by norm_num)).2.1

/-- Claim C10 counterexample: the reading produced by the all-zero raw frame
(temperature -50, humidity 0) is classified as not failed by the full
variant and as failed by the simpler variant, and their payloads differ
("failed" versus a numeric payload), refuting the claim that the simpler
variant produces the same result on every reading. -/
theorem c10_variant_counterexample :
    is_failed (convert ⟨0, 0, 0, 0, 0, 0⟩) = false ∧
    is_failed_simple (convert ⟨0, 0, 0, 0, 0, 0⟩) = true ∧
    format_payload_simple (convert ⟨0, 0, 0, 0, 0, 0⟩) = "failed" ∧
    format_payload (convert ⟨0, 0, 0, 0, 0, 0⟩) ≠ "failed" := by
  rw [convert_zero]
  have hf : is_failed ⟨-50, 0⟩ = false := by
    simp only [is_failed, Bool.or_eq_false_iff, decide_eq_false_iff_not]
    norm_num
  have hs : is_failed_simple ⟨-50, 0⟩ = true := by
    simp only [is_failed_simple, Bool.or_eq_true, decide_eq_true_eq]
    norm_num
  refine ⟨hf, hs, ?_, ?_⟩
  · rw [format_payload_simple, if_pos hs]
  · rw [format_payload, if_neg (by simp [hf])]
    exact temp_string_ne_failed _ _
